import Mathlib

/-!
Verification of the battleships board/ship engine (src/main.py).

The Python classes are embedded as follows:
* `Dot` (main.py `Dot`): coordinates are natural numbers, since the Python
  setters reject negative components at construction.
* `Ship` (main.py `Ship`): origin, size, orientation (an integer that is 0 for
  horizontal and nonzero — in practice 1 — for vertical, matching the
  truthiness test `if self.orientation:`), and the mutable `wreck` set.
* `Board` (main.py `Board`): size, `unavailable_dots`, `used_dots`, `ships`,
  `hidden`.  The mutating methods `add_ship` and `shot` are embedded as state
  transformers returning the updated board together with an error component;
  in the source every `raise` happens before any mutation, so on an error the
  returned state is the input state.
* `random.randint lo hi` is modelled as `lo + r % (hi + 1 - lo)` applied to a
  value `r` drawn from an arbitrary stream `Nat → Nat`: the result is always
  in `[lo, hi]` and every value of that interval is attained for a suitable
  stream value.
-/

structure Dot where
  x : Nat
  y : Nat
deriving DecidableEq

structure Ship where
  origin : Dot
  size : Nat
  orientation : Nat
  wreck : Finset Dot
deriving DecidableEq

/-- main.py `Ship.dots`: the occupied cells, one per `i < size`, advancing
along y when the orientation is truthy (vertical) and along x otherwise. -/
def Ship.dots (s : Ship) : Finset Dot :=
  (Finset.range s.size).image fun i =>
    if s.orientation ≠ 0 then ⟨s.origin.x, s.origin.y + i⟩
    else ⟨s.origin.x + i, s.origin.y⟩

/-- main.py `Ship.margins`: all cells at Chebyshev distance at most `m` from
an occupied cell whose components are non-negative (the Python code builds
`Dot(d.x+i, d.y+j)` for `i, j ∈ [-m, m]` and drops the candidates whose
construction fails on a negative component).  Every call site uses `m = 1`;
the source rejects `m < 1`. -/
def Ship.margins (s : Ship) (m : Nat) : Finset Dot :=
  s.dots.biUnion fun d =>
    (((Finset.Icc (-(m : Int)) (m : Int)) ×ˢ (Finset.Icc (-(m : Int)) (m : Int))).filter
      fun p => 0 ≤ (d.x : Int) + p.1 ∧ 0 ≤ (d.y : Int) + p.2).image
      fun p => ⟨((d.x : Int) + p.1).toNat, ((d.y : Int) + p.2).toNat⟩

/-- main.py `Ship.health`: number of occupied cells not yet in the wreck set. -/
def Ship.health (s : Ship) : Nat := (s.dots \ s.wreck).card

/-- main.py `Ship.isalive`: health is positive. -/
def Ship.isalive (s : Ship) : Bool := decide (0 < s.health)

/-- main.py `Ship.hit`: if the target is occupied, add it to the wreck set and
report `true`, otherwise report `false`. -/
def Ship.hit (s : Ship) (t : Dot) : Ship × Bool :=
  if t ∈ s.dots then ({ s with wreck := insert t s.wreck }, true) else (s, false)

inductive BoardErr where
  | BoardOutException
  | ShipDotsOverlap
  | DotAlreadyUsed
deriving DecidableEq

instance : DecidableEq (Except BoardErr Bool) := fun a b =>
  match a, b with
  | .ok x, .ok y =>
      if h : x = y then .isTrue (by rw [h])
      else .isFalse (fun hc => h (Except.ok.inj hc))
  | .error x, .error y =>
      if h : x = y then .isTrue (by rw [h])
      else .isFalse (fun hc => h (Except.error.inj hc))
  | .ok _, .error _ => .isFalse (fun hc => Except.noConfusion hc)
  | .error _, .ok _ => .isFalse (fun hc => Except.noConfusion hc)

structure Board where
  size : Nat
  unavailable_dots : Finset Dot
  used_dots : Finset Dot
  ships : List Ship
  hidden : Bool
deriving DecidableEq

/-- main.py `Board.__init__`: empty dot sets and no ships.  (The Python size
setter rejects `size < 10`; reachability below carries that hypothesis.) -/
def Board.new (size : Nat) (hidden : Bool) : Board :=
  ⟨size, ∅, ∅, [], hidden⟩

/-- main.py `Board.out`: true when the dot lies outside `[0, size)` on either
axis (the lower bound is automatic for natural-number components). -/
def Board.out (b : Board) (d : Dot) : Bool :=
  ! (decide (d.x < b.size) && decide (d.y < b.size))

/-- main.py `Board.add_ship` as a state transformer.  The overlap check comes
first, then the bounds check; each raise precedes any mutation, so the error
cases return the input board and ship unchanged. -/
def Board.add_ship (b : Board) (s : Ship) : Board × Ship × Option BoardErr :=
  if (b.unavailable_dots ∩ s.margins 1).Nonempty then
    (b, s, some .ShipDotsOverlap)
  else if ∃ d ∈ s.dots, b.out d = true then
    (b, s, some .BoardOutException)
  else
    ({ b with
        ships := b.ships ++ [s],
        unavailable_dots := b.unavailable_dots ∪ s.margins 1 }, s, none)

/-- main.py `Board.live_ships`: number of ships still alive. -/
def Board.live_ships (b : Board) : Nat :=
  (b.ships.filter fun s => s.isalive).length

/-- main.py `Board.shot` as a state transformer.  The bounds check comes
before the already-used check; on success every ship's `hit` is evaluated in
order and the reported result is the one of the last ship evaluated (`result`
is overwritten on each loop iteration), then the target joins `used_dots`. -/
def Board.shot (b : Board) (t : Dot) : Board × Except BoardErr Bool :=
  if b.out t then (b, .error .BoardOutException)
  else if t ∈ b.used_dots then (b, .error .DotAlreadyUsed)
  else
    let p := b.ships.foldl
      (fun (acc : List Ship × Bool) sh => (acc.1 ++ [(sh.hit t).1], (sh.hit t).2))
      ([], false)
    ({ b with ships := p.1, used_dots := insert t b.used_dots }, .ok p.2)

/-- Model of `random.randint lo hi`: with `r` drawn from an arbitrary stream,
the result `lo + r % (hi + 1 - lo)` lies in `[lo, hi]` and attains every value
of that interval. -/
def randint (lo hi : Nat) (r : Nat) : Nat := lo + r % (hi + 1 - lo)

/-- main.py `Ai.ask`: `Dot(randint(0, size), randint(0, size))` where `size`
is the AI's own board size; consumes two stream values. -/
def Ai_ask (size : Nat) (rnd : Nat → Nat) (idx : Nat) : Dot :=
  ⟨randint 0 size (rnd idx), randint 0 size (rnd (idx + 1))⟩

/-- main.py `Game._random_board`: the ship-length template list
`[4]*(size//8) + [3]*(size//4) + [2]*(size//3) + [1]*(size//2 - 1)`. -/
def ships_template (size : Nat) : List Nat :=
  List.replicate (size / 8) 4 ++ List.replicate (size / 4) 3 ++
    List.replicate (size / 3) 2 ++ List.replicate (size / 2 - 1) 1

/-- main.py `Game._random_board`: one candidate ship,
`Ship(Dot(randint(0, size-1), randint(0, size-1)), t, randint(0, 1))`;
consumes three stream values starting at `idx`. -/
def draw_ship (size t : Nat) (rnd : Nat → Nat) (idx : Nat) : Ship :=
  ⟨⟨randint 0 (size - 1) (rnd idx), randint 0 (size - 1) (rnd (idx + 1))⟩, t,
    randint 0 1 (rnd (idx + 2)), ∅⟩

/-- main.py `Game._random_board`, inner `while True` loop for one template
`t`: increment the attempt counter, give up (returning `none`, which abandons
the whole construction) once the counter exceeds `bound`, otherwise draw a
ship and either retry on a placement error or return the updated board, the
counter and the stream position.  The counter argument is whatever the
previous templates left it at — it is never reset. -/
def place_loop (size bound t : Nat) (rnd : Nat → Nat) (b : Board)
    (idx counter : Nat) : Option (Board × Nat × Nat) :=
  if _h : bound < counter + 1 then none
  else
    match (b.add_ship (draw_ship size t rnd idx)).2.2 with
    | some _ => place_loop size bound t rnd b (idx + 3) (counter + 1)
    | none => some ((b.add_ship (draw_ship size t rnd idx)).1, counter + 1, idx + 3)
termination_by bound + 1 - counter
decreasing_by omega

/-- main.py `Game._random_board`, outer `for t in ships_template` loop: the
counter and the stream position thread from one template to the next. -/
def random_go (size : Nat) (rnd : Nat → Nat) :
    List Nat → Board → Nat → Nat → Option Board
  | [], b, _, _ => some b
  | t :: ts, b, counter, idx =>
    match place_loop size ((size + 1) ^ 2) t rnd b idx counter with
    | none => none
    | some (b2, c2, i2) => random_go size rnd ts b2 c2 i2

/-- main.py `Game._random_board`: build a fresh board, then place every
template with a shared attempt counter starting at 0 and bound `(size+1)^2`. -/
def _random_board (size : Nat) (hidden : Bool) (rnd : Nat → Nat) : Option Board :=
  random_go size rnd (ships_template size) (Board.new size hidden) 0 0

/-- main.py `User.move`: keep drawing targets and shooting the opponent board
until a shot is accepted; errors are reported and retried with a fresh target.
The retry loop is unbounded in the source, so it carries explicit fuel. -/
def user_move (b : Board) (targets : Nat → Dot) :
    Nat → Nat → Option (Board × Bool × Nat)
  | 0, _ => none
  | fuel + 1, idx =>
    match b.shot (targets idx) with
    | (_, .error _) => user_move b targets fuel (idx + 1)
    | (b2, .ok r) => some (b2, r, idx + 1)

inductive Winner where
  | human
  | ai
deriving DecidableEq

structure GameSt where
  human_board : Board
  ai_board : Board
deriving DecidableEq

/-- main.py `Game.loop`: on even turns the human shoots the AI board, on odd
turns the AI shoots the human board; only after the move do the win checks
run (`human.own_board.live_ships == 0` announcing the AI win first, then
`ai.own_board.live_ships == 0` announcing the human win).  The result carries
the winner together with the number of moves executed before the report; the
`while True` loop is unbounded in the source, so it carries explicit fuel. -/
def game_loop (hT aT : Nat → Dot) (moveFuel : Nat) :
    Nat → GameSt → Nat → Nat → Nat → Nat → Option (Winner × Nat)
  | 0, _, _, _, _, _ => none
  | fuel + 1, st, turn, hIdx, aIdx, moves =>
    if turn % 2 = 1 then
      match user_move st.human_board aT moveFuel aIdx with
      | none => none
      | some (hb2, _, aIdx2) =>
        if hb2.live_ships = 0 then some (.ai, moves + 1)
        else if st.ai_board.live_ships = 0 then some (.human, moves + 1)
        else game_loop hT aT moveFuel fuel { st with human_board := hb2 }
          (turn + 1) hIdx aIdx2 (moves + 1)
    else
      match user_move st.ai_board hT moveFuel hIdx with
      | none => none
      | some (ab2, _, hIdx2) =>
        if st.human_board.live_ships = 0 then some (.ai, moves + 1)
        else if ab2.live_ships = 0 then some (.human, moves + 1)
        else game_loop hT aT moveFuel fuel { st with ai_board := ab2 }
          (turn + 1) hIdx2 aIdx (moves + 1)

/-- Boards reachable from a fresh board (the constructor accepts sizes of at
least 10) by successful `add_ship` and `shot` calls. -/
inductive Reachable : Board → Prop
  | init : ∀ size hidden, 10 ≤ size → Reachable (Board.new size hidden)
  | add : ∀ b s, Reachable b → (b.add_ship s).2.2 = none →
      Reachable (b.add_ship s).1
  | shot : ∀ b t, Reachable b → (b.shot t).2.isOk = true →
      Reachable (b.shot t).1

theorem Board.out_eq_false_iff (b : Board) (d : Dot) :
    b.out d = false ↔ d.x < b.size ∧ d.y < b.size := by
  simp [Board.out]

/-- C7: for a horizontal ship (orientation 0) the occupied set is exactly
the cells (origin.x + i, origin.y) for i < size; for a vertical ship
(orientation nonzero) it is exactly (origin.x, origin.y + i) for i < size. -/
theorem dots_characterization (s : Ship) :
    (s.orientation = 0 →
      ∀ d : Dot, d ∈ s.dots ↔ ∃ i, i < s.size ∧ d = ⟨s.origin.x + i, s.origin.y⟩) ∧
    (s.orientation ≠ 0 →
      ∀ d : Dot, d ∈ s.dots ↔ ∃ i, i < s.size ∧ d = ⟨s.origin.x, s.origin.y + i⟩) := by
  constructor <;> intro ho d <;>
    simp [Ship.dots, ho, Finset.mem_image, Finset.mem_range, eq_comm]

/-- Witness for C7 at a concrete length-4 horizontal ship. -/
theorem dots_characterization_witness :
    (⟨3, 3⟩ : Dot) ∈ (Ship.mk ⟨2, 3⟩ 4 0 ∅).dots ↔
      ∃ i, i < 4 ∧ (⟨3, 3⟩ : Dot) = ⟨2 + i, 3⟩ :=
  (dots_characterization ⟨⟨2, 3⟩, 4, 0, ∅⟩).1 rfl ⟨3, 3⟩

/-- C8: the AI always selects both components in [0, size] inclusive, and the
value size itself — which the board's own bounds check rejects — is among the
possible selections. -/
theorem ai_ask_range (size : Nat) (rnd : Nat → Nat) (idx : Nat) :
    ((Ai_ask size rnd idx).x ≤ size ∧ (Ai_ask size rnd idx).y ≤ size) ∧
    (∃ r : Nat → Nat, (Ai_ask size r idx).x = size ∧
      (Board.new size false).out (Ai_ask size r idx) = true) := by
  constructor
  · constructor
    · have h := Nat.mod_lt (rnd idx) (Nat.succ_pos size)
      simp only [Ai_ask, randint, Nat.sub_zero, Nat.zero_add]
      exact Nat.le_of_lt_succ h
    · have h := Nat.mod_lt (rnd (idx + 1)) (Nat.succ_pos size)
      simp only [Ai_ask, randint, Nat.sub_zero, Nat.zero_add]
      exact Nat.le_of_lt_succ h
  · refine ⟨fun _ => size, ?_, ?_⟩
    · simp [Ai_ask, randint, Nat.mod_eq_of_lt (Nat.lt_succ_self size)]
    · simp [Ai_ask, randint, Board.out, Board.new,
        Nat.mod_eq_of_lt (Nat.lt_succ_self size)]

/-- C6: add_ship reports ShipDotsOverlap whenever the margin set meets the
blocked set (no matter whether the ship is also out of bounds), reports
BoardOutException when there is no overlap but some occupied cell is outside,
and otherwise appends the ship and unions its margins into the blocked set. -/
theorem add_ship_spec (b : Board) (s : Ship) :
    ((b.unavailable_dots ∩ s.margins 1).Nonempty →
      b.add_ship s = (b, s, some BoardErr.ShipDotsOverlap)) ∧
    (b.unavailable_dots ∩ s.margins 1 = ∅ → (∃ d ∈ s.dots, b.out d = true) →
      b.add_ship s = (b, s, some BoardErr.BoardOutException)) ∧
    (b.unavailable_dots ∩ s.margins 1 = ∅ → (∀ d ∈ s.dots, b.out d = false) →
      b.add_ship s = ({ b with
          ships := b.ships ++ [s],
          unavailable_dots := b.unavailable_dots ∪ s.margins 1 }, s, none)) := by
  refine ⟨fun h1 => ?_, fun h1 h2 => ?_, fun h1 h2 => ?_⟩
  · rw [Board.add_ship, if_pos h1]
  · have hn : ¬ (b.unavailable_dots ∩ s.margins 1).Nonempty :=
      Finset.not_nonempty_iff_eq_empty.mpr h1
    rw [Board.add_ship, if_neg hn, if_pos h2]
  · have hn : ¬ (b.unavailable_dots ∩ s.margins 1).Nonempty :=
      Finset.not_nonempty_iff_eq_empty.mpr h1
    have he : ¬ ∃ d ∈ s.dots, b.out d = true := by
      rintro ⟨d, hd, hout⟩
      rw [h2 d hd] at hout
      exact Bool.false_ne_true hout
    rw [Board.add_ship, if_neg hn, if_neg he]

def exShipA : Ship := ⟨⟨0, 0⟩, 1, 0, ∅⟩

def exShipB : Ship := ⟨⟨5, 5⟩, 1, 0, ∅⟩

def exOverlapBoard : Board := ⟨10, {⟨0, 0⟩}, ∅, [], false⟩

/-- Witness for C6: all three branches at concrete boards and ships. -/
theorem add_ship_spec_witness :
    exOverlapBoard.add_ship exShipA =
      (exOverlapBoard, exShipA, some BoardErr.ShipDotsOverlap) ∧
    (Board.new 10 false).add_ship ⟨⟨7, 0⟩, 4, 0, ∅⟩ =
      (Board.new 10 false, ⟨⟨7, 0⟩, 4, 0, ∅⟩, some BoardErr.BoardOutException) ∧
    (Board.new 10 false).add_ship ⟨⟨0, 0⟩, 4, 0, ∅⟩ =
      ({ Board.new 10 false with
          ships := (Board.new 10 false).ships ++ [⟨⟨0, 0⟩, 4, 0, ∅⟩],
          unavailable_dots := (Board.new 10 false).unavailable_dots ∪
            Ship.margins ⟨⟨0, 0⟩, 4, 0, ∅⟩ 1 }, ⟨⟨0, 0⟩, 4, 0, ∅⟩, none) :=
  ⟨(add_ship_spec exOverlapBoard exShipA).1 (by decide),
   (add_ship_spec (Board.new 10 false) ⟨⟨7, 0⟩, 4, 0, ∅⟩).2.1 (by decide) (by decide),
   (add_ship_spec (Board.new 10 false) ⟨⟨0, 0⟩, 4, 0, ∅⟩).2.2 (by decide) (by decide)⟩

/-- C9: when add_ship reports an error, the fleet list, the blocked set, the
fired-upon set and the ship's wreck set all come back unchanged. -/
theorem add_ship_atomic (b : Board) (s : Ship) (e : BoardErr)
    (h : (b.add_ship s).2.2 = some e) :
    (b.add_ship s).1.ships = b.ships ∧
    (b.add_ship s).1.unavailable_dots = b.unavailable_dots ∧
    (b.add_ship s).1.used_dots = b.used_dots ∧
    (b.add_ship s).2.1.wreck = s.wreck := by
  by_cases h1 : (b.unavailable_dots ∩ s.margins 1).Nonempty
  · rw [Board.add_ship, if_pos h1]
    exact ⟨rfl, rfl, rfl, rfl⟩
  · by_cases h2 : ∃ d ∈ s.dots, b.out d = true
    · rw [Board.add_ship, if_neg h1, if_pos h2]
      exact ⟨rfl, rfl, rfl, rfl⟩
    · exfalso
      rw [Board.add_ship, if_neg h1, if_neg h2] at h
      exact Option.noConfusion h

/-- Witness for C9 at a concrete overlap failure. -/
theorem add_ship_atomic_witness :
    (exOverlapBoard.add_ship exShipA).1.ships = exOverlapBoard.ships ∧
    (exOverlapBoard.add_ship exShipA).1.unavailable_dots =
      exOverlapBoard.unavailable_dots ∧
    (exOverlapBoard.add_ship exShipA).1.used_dots = exOverlapBoard.used_dots ∧
    (exOverlapBoard.add_ship exShipA).2.1.wreck = exShipA.wreck :=
  add_ship_atomic exOverlapBoard exShipA BoardErr.ShipDotsOverlap (by decide)

/-- C3: shot reports BoardOutException for an outside target regardless of
the fired-upon set, reports DotAlreadyUsed for an inside target already fired
upon, leaves the whole board (and so the fired-upon set) unchanged in either
failure case, and on success adds exactly the target to the fired-upon set,
growing it by exactly one. -/
theorem shot_spec (b : Board) (t : Dot) :
    (b.out t = true → b.shot t = (b, Except.error BoardErr.BoardOutException)) ∧
    (b.out t = false → t ∈ b.used_dots →
      b.shot t = (b, Except.error BoardErr.DotAlreadyUsed)) ∧
    (∀ b2 r, b.shot t = (b2, Except.ok r) →
      t ∉ b.used_dots ∧ b2.used_dots = insert t b.used_dots ∧
      b2.used_dots.card = b.used_dots.card + 1) := by
  refine ⟨fun h1 => by rw [Board.shot, if_pos h1], fun h1 h2 => ?_, fun b2 r h => ?_⟩
  · have hout : ¬ (b.out t = true) := by simp [h1]
    rw [Board.shot, if_neg hout, if_pos h2]
  · by_cases h1 : b.out t = true
    · rw [Board.shot, if_pos h1] at h
      exact absurd (congrArg Prod.snd h) (by simp)
    · by_cases h2 : t ∈ b.used_dots
      · rw [Board.shot, if_neg h1, if_pos h2] at h
        exact absurd (congrArg Prod.snd h) (by simp)
      · rw [Board.shot, if_neg h1, if_neg h2] at h
        have hb2 := congrArg Prod.fst h
        simp only at hb2
        refine ⟨h2, ?_, ?_⟩
        · rw [← hb2]
        · rw [← hb2]
          exact Finset.card_insert_of_not_mem h2

def exUsedBoard : Board := ⟨10, ∅, {⟨0, 0⟩}, [], false⟩

/-- Witness for C3: all three branches at concrete boards and targets. -/
theorem shot_spec_witness :
    (Board.new 10 false).shot ⟨10, 0⟩ =
      (Board.new 10 false, Except.error BoardErr.BoardOutException) ∧
    exUsedBoard.shot ⟨0, 0⟩ = (exUsedBoard, Except.error BoardErr.DotAlreadyUsed) ∧
    ((⟨0, 0⟩ : Dot) ∉ (Board.new 10 false).used_dots ∧
      (⟨10, ∅, {⟨0, 0⟩}, [], false⟩ : Board).used_dots =
        insert ⟨0, 0⟩ (Board.new 10 false).used_dots ∧
      (⟨10, ∅, {⟨0, 0⟩}, [], false⟩ : Board).used_dots.card =
        (Board.new 10 false).used_dots.card + 1) :=
  ⟨(shot_spec (Board.new 10 false) ⟨10, 0⟩).1 (by decide),
   (shot_spec exUsedBoard ⟨0, 0⟩).2.1 (by decide) (by decide),
   (shot_spec (Board.new 10 false) ⟨0, 0⟩).2.2 ⟨10, ∅, {⟨0, 0⟩}, [], false⟩ false
     (by decide)⟩

/-- C10: on a board with no ships, an accepted shot reports a miss and still
records the target as fired upon. -/
theorem shot_empty_fleet (b : Board) (t : Dot)
    (hships : b.ships = []) (hin : b.out t = false) (hused : t ∉ b.used_dots) :
    (b.shot t).2 = Except.ok false ∧
    (b.shot t).1.used_dots = insert t b.used_dots := by
  have hout : ¬ (b.out t = true) := by simp [hin]
  rw [Board.shot, if_neg hout, if_neg hused]
  simp [hships]

/-- Witness for C10 at a fresh size-10 board. -/
theorem shot_empty_fleet_witness :
    ((Board.new 10 false).shot ⟨3, 4⟩).2 = Except.ok false ∧
    ((Board.new 10 false).shot ⟨3, 4⟩).1.used_dots =
      insert ⟨3, 4⟩ (Board.new 10 false).used_dots :=
  shot_empty_fleet (Board.new 10 false) ⟨3, 4⟩ rfl (by decide) (by decide)

def exBugBoard : Board := ⟨10, ∅, ∅, [exShipA, exShipB], false⟩

/-- C1: counter-evidence against the claimed OR-equivalence.  On a board with
two ships whose occupied sets are disjoint, an in-bounds, never-fired shot at
a cell of the FIRST ship is reported as a miss (the result of the last ship
evaluated), although the first ship's wreck set does record the hit — the
code contradicts its own docstring, which promises True if any ship was hit. -/
theorem shot_last_vessel_bug :
    exShipA.dots ∩ exShipB.dots = ∅ ∧
    exBugBoard.out ⟨0, 0⟩ = false ∧
    (⟨0, 0⟩ : Dot) ∉ exBugBoard.used_dots ∧
    (⟨0, 0⟩ : Dot) ∈ exShipA.dots ∧
    (exBugBoard.shot ⟨0, 0⟩).2 = Except.ok false ∧
    ((exBugBoard.shot ⟨0, 0⟩).1.ships.map fun sh => sh.wreck) = [{⟨0, 0⟩}, ∅] := by
  decide

theorem Ship.hit_dots (s : Ship) (t : Dot) : (s.hit t).1.dots = s.dots := by
  rw [Ship.hit]
  split <;> rfl

theorem Ship.hit_margins (s : Ship) (t : Dot) (m : Nat) :
    (s.hit t).1.margins m = s.margins m := by
  rw [Ship.hit]
  split <;> rfl

theorem shot_fold_ships (t : Dot) :
    ∀ (ships acc : List Ship) (r : Bool),
      (ships.foldl (fun (acc2 : List Ship × Bool) sh =>
        (acc2.1 ++ [(sh.hit t).1], (sh.hit t).2)) (acc, r)).1 =
      acc ++ ships.map fun sh => (sh.hit t).1
  | [], acc, r => by simp
  | sh :: ships, acc, r => by
    rw [List.foldl_cons, List.map_cons]
    rw [shot_fold_ships t ships (acc ++ [(sh.hit t).1]) (sh.hit t).2]
    simp

/-- The placement/shot invariant: every occupied cell of every placed ship is
strictly inside the board, every placed ship's margin set is blocked, and the
margin sets of the placed ships are pairwise disjoint. -/
def BoardInv (b : Board) : Prop :=
  (∀ s ∈ b.ships, ∀ d ∈ s.dots, d.x < b.size ∧ d.y < b.size) ∧
  (∀ s ∈ b.ships, s.margins 1 ⊆ b.unavailable_dots) ∧
  List.Pairwise (fun s1 s2 => Disjoint (s1.margins 1) (s2.margins 1)) b.ships

theorem boardInv_add (b : Board) (s : Ship) (hInv : BoardInv b)
    (hok : (b.add_ship s).2.2 = none) : BoardInv (b.add_ship s).1 := by
  by_cases h1 : (b.unavailable_dots ∩ s.margins 1).Nonempty
  · rw [Board.add_ship, if_pos h1] at hok
    exact Option.noConfusion hok
  by_cases h2 : ∃ d ∈ s.dots, b.out d = true
  · rw [Board.add_ship, if_neg h1, if_pos h2] at hok
    exact Option.noConfusion hok
  rw [Board.add_ship, if_neg h1, if_neg h2]
  obtain ⟨hbnd, hsub, hpair⟩ := hInv
  have hdisj : Disjoint b.unavailable_dots (s.margins 1) :=
    Finset.disjoint_iff_inter_eq_empty.mpr (Finset.not_nonempty_iff_eq_empty.mp h1)
  refine ⟨?_, ?_, ?_⟩
  · intro s2 hs2 d hd
    simp only [List.mem_append, List.mem_singleton] at hs2
    rcases hs2 with hs2 | rfl
    · exact hbnd s2 hs2 d hd
    · have hno : ¬ (b.out d = true) := fun hc => h2 ⟨d, hd, hc⟩
      refine (Board.out_eq_false_iff b d).mp ?_
      cases hbo : b.out d
      · rfl
      · exact absurd hbo hno
  · intro s2 hs2
    simp only [List.mem_append, List.mem_singleton] at hs2
    rcases hs2 with hs2 | rfl
    · exact (hsub s2 hs2).trans Finset.subset_union_left
    · exact Finset.subset_union_right
  · rw [List.pairwise_append]
    refine ⟨hpair, List.pairwise_singleton _ _, ?_⟩
    intro s1 hs1 s2 hs2
    rw [List.mem_singleton] at hs2
    subst hs2
    exact Finset.disjoint_of_subset_left (hsub s1 hs1) hdisj

theorem boardInv_shot (b : Board) (t : Dot) (hInv : BoardInv b) :
    BoardInv (b.shot t).1 := by
  by_cases h1 : b.out t = true
  · rw [Board.shot, if_pos h1]
    exact hInv
  by_cases h2 : t ∈ b.used_dots
  · rw [Board.shot, if_neg h1, if_pos h2]
    exact hInv
  rw [Board.shot, if_neg h1, if_neg h2]
  obtain ⟨hbnd, hsub, hpair⟩ := hInv
  simp only [BoardInv, shot_fold_ships t b.ships [] false, List.nil_append]
  refine ⟨?_, ?_, ?_⟩
  · intro s2 hs2 d hd
    rw [List.mem_map] at hs2
    obtain ⟨s0, hs0, rfl⟩ := hs2
    rw [Ship.hit_dots] at hd
    exact hbnd s0 hs0 d hd
  · intro s2 hs2
    rw [List.mem_map] at hs2
    obtain ⟨s0, hs0, rfl⟩ := hs2
    rw [Ship.hit_margins]
    exact hsub s0 hs0
  · rw [List.pairwise_map]
    simpa only [Ship.hit_margins] using hpair

theorem reachable_boardInv (b : Board) (h : Reachable b) : BoardInv b := by
  induction h with
  | init size hidden hsz => simp [BoardInv, Board.new]
  | add b s hb hok ih => exact boardInv_add b s ih hok
  | shot b t hb _hok ih => exact boardInv_shot b t ih

/-- C2: on every board reachable from a fresh board by successful add_ship
and shot calls, all occupied cells of all placed ships lie strictly inside
[0, size) on both axes, and the buffer-1 margin sets of any two distinct
placed ships are disjoint. -/
theorem reachable_invariant (b : Board) (h : Reachable b) :
    (∀ s ∈ b.ships, ∀ d ∈ s.dots, d.x < b.size ∧ d.y < b.size) ∧
    (∀ i j : Fin b.ships.length, i ≠ j →
      Disjoint ((b.ships.get i).margins 1) ((b.ships.get j).margins 1)) := by
  obtain ⟨hbnd, _, hpair⟩ := reachable_boardInv b h
  refine ⟨hbnd, fun i j hij => ?_⟩
  rcases Nat.lt_trichotomy i.1 j.1 with hlt | heq | hgt
  · exact (List.pairwise_iff_get.mp hpair) i j hlt
  · exact absurd (Fin.ext heq) hij
  · exact ((List.pairwise_iff_get.mp hpair) j i hgt).symm

def exPlacedBoard : Board := ((Board.new 10 false).add_ship ⟨⟨0, 0⟩, 4, 0, ∅⟩).1

/-- Witness for C2 at a board reached by one successful placement. -/
theorem reachable_invariant_witness :
    (∀ s ∈ exPlacedBoard.ships, ∀ d ∈ s.dots,
      d.x < exPlacedBoard.size ∧ d.y < exPlacedBoard.size) ∧
    (∀ i j : Fin exPlacedBoard.ships.length, i ≠ j →
      Disjoint ((exPlacedBoard.ships.get i).margins 1)
        ((exPlacedBoard.ships.get j).margins 1)) :=
  reachable_invariant exPlacedBoard
    (Reachable.add (Board.new 10 false) ⟨⟨0, 0⟩, 4, 0, ∅⟩
      (Reachable.init 10 false (by decide)) (by decide))

theorem place_loop_stop (size bound t : Nat) (rnd : Nat → Nat) (b : Board)
    (idx counter : Nat) (h : bound < counter + 1) :
    place_loop size bound t rnd b idx counter = none := by
  rw [place_loop, dif_pos h]

theorem place_loop_fail_step (size bound t : Nat) (rnd : Nat → Nat) (b : Board)
    (idx counter : Nat) (h : ¬ bound < counter + 1) (e : BoardErr)
    (hfail : (b.add_ship (draw_ship size t rnd idx)).2.2 = some e) :
    place_loop size bound t rnd b idx counter =
      place_loop size bound t rnd b (idx + 3) (counter + 1) := by
  rw [place_loop, dif_neg h, hfail]

theorem place_loop_succ_step (size bound t : Nat) (rnd : Nat → Nat) (b : Board)
    (idx counter : Nat) (h : ¬ bound < counter + 1)
    (hok : (b.add_ship (draw_ship size t rnd idx)).2.2 = none) :
    place_loop size bound t rnd b idx counter =
      some ((b.add_ship (draw_ship size t rnd idx)).1, counter + 1, idx + 3) := by
  rw [place_loop, dif_neg h, hok]

theorem place_loop_none_iff (size bound t : Nat) (rnd : Nat → Nat) (b : Board) :
    ∀ n idx counter, bound + 1 - counter = n →
      (place_loop size bound t rnd b idx counter = none ↔
        ∀ k, counter + 1 + k ≤ bound →
          (b.add_ship (draw_ship size t rnd (idx + 3 * k))).2.2 ≠ none) := by
  intro n
  induction n with
  | zero =>
    intro idx counter h
    rw [place_loop_stop size bound t rnd b idx counter (by omega)]
    exact iff_of_true rfl fun k hk => absurd hk (by omega)
  | succ m ih =>
    intro idx counter h
    by_cases hb : bound < counter + 1
    · rw [place_loop_stop size bound t rnd b idx counter hb]
      exact iff_of_true rfl fun k hk => absurd hk (by omega)
    · cases hres : (b.add_ship (draw_ship size t rnd idx)).2.2 with
      | some e =>
        rw [place_loop_fail_step size bound t rnd b idx counter hb e hres]
        rw [ih (idx + 3) (counter + 1) (by omega)]
        constructor
        · intro hall k hk
          cases k with
          | zero => simp [hres]
          | succ k2 =>
            have hidx : idx + 3 * (k2 + 1) = idx + 3 + 3 * k2 := by ring
            rw [hidx]
            exact hall k2 (by omega)
        · intro hall k hk
          have hidx : idx + 3 + 3 * k = idx + 3 * (k + 1) := by ring
          rw [hidx]
          exact hall (k + 1) (by omega)
      | none =>
        rw [place_loop_succ_step size bound t rnd b idx counter hb hres]
        refine iff_of_false (fun hc => Option.noConfusion hc) (fun hall => ?_)
        have h0 := hall 0 (by omega)
        rw [Nat.mul_zero, Nat.add_zero] at h0
        exact h0 hres

theorem place_loop_skip (size bound t : Nat) (rnd : Nat → Nat) (b : Board) :
    ∀ n idx counter, counter + n ≤ bound →
      (∀ j, j < n → (b.add_ship (draw_ship size t rnd (idx + 3 * j))).2.2 ≠ none) →
      place_loop size bound t rnd b idx counter =
        place_loop size bound t rnd b (idx + 3 * n) (counter + n)
  | 0, idx, counter, _, _ => by simp
  | n + 1, idx, counter, hle, hfail => by
    have hb : ¬ bound < counter + 1 := by omega
    have h0 := hfail 0 (Nat.succ_pos n)
    rw [Nat.mul_zero, Nat.add_zero] at h0
    obtain ⟨e, he⟩ : ∃ e, (b.add_ship (draw_ship size t rnd idx)).2.2 = some e := by
      cases hres : (b.add_ship (draw_ship size t rnd idx)).2.2
      · exact absurd hres h0
      · exact ⟨_, rfl⟩
    rw [place_loop_fail_step size bound t rnd b idx counter hb e he]
    have h1 : idx + 3 * (n + 1) = idx + 3 + 3 * n := by ring
    have h2 : counter + (n + 1) = counter + 1 + n := by ring
    rw [h1, h2]
    exact place_loop_skip size bound t rnd b n (idx + 3) (counter + 1) (by omega)
      (fun j hj => by
        have hh := hfail (j + 1) (by omega)
        have hidx : idx + 3 * (j + 1) = idx + 3 + 3 * j := by ring
        rwa [hidx] at hh)

theorem random_go_cons_none (size : Nat) (rnd : Nat → Nat) (t : Nat)
    (ts : List Nat) (b : Board) (counter idx : Nat)
    (h : place_loop size ((size + 1) ^ 2) t rnd b idx counter = none) :
    random_go size rnd (t :: ts) b counter idx = none := by
  simp only [random_go, h]

theorem random_go_cons_some (size : Nat) (rnd : Nat → Nat) (t : Nat)
    (ts : List Nat) (b b2 : Board) (counter idx c2 i2 : Nat)
    (h : place_loop size ((size + 1) ^ 2) t rnd b idx counter = some (b2, c2, i2)) :
    random_go size rnd (t :: ts) b counter idx = random_go size rnd ts b2 c2 i2 := by
  simp only [random_go, h]

/-- C4 (amended): the placement-attempt counter is cumulative over all
templates of one construction attempt and never reset.  The loop for one
template, entered with the cumulative counter left by the previous templates,
abandons the construction exactly when every attempt that keeps the
cumulative count at or below (size+1)^2 fails; abandonment of the template
loop abandons the whole construction, and on success the incremented
cumulative counter (not zero) is passed on to the next template. -/
theorem random_board_cumulative_abandon (size t : Nat) (rnd : Nat → Nat)
    (b : Board) (ts : List Nat) (idx counter : Nat) :
    (place_loop size ((size + 1) ^ 2) t rnd b idx counter = none ↔
      ∀ k, counter + 1 + k ≤ (size + 1) ^ 2 →
        (b.add_ship (draw_ship size t rnd (idx + 3 * k))).2.2 ≠ none) ∧
    (place_loop size ((size + 1) ^ 2) t rnd b idx counter = none →
      random_go size rnd (t :: ts) b counter idx = none) ∧
    (∀ b2 c2 i2,
      place_loop size ((size + 1) ^ 2) t rnd b idx counter = some (b2, c2, i2) →
      random_go size rnd (t :: ts) b counter idx = random_go size rnd ts b2 c2 i2) :=
  ⟨place_loop_none_iff size ((size + 1) ^ 2) t rnd b _ idx counter rfl,
   fun h => random_go_cons_none size rnd t ts b counter idx h,
   fun b2 c2 i2 h => random_go_cons_some size rnd t ts b b2 counter idx c2 i2 h⟩

/-- Witness for C4 (amended): a loop entered with the cumulative counter
already at the bound abandons the construction at once, and a first-attempt
success threads counter 1 (not 0) to the next template. -/
theorem random_board_cumulative_abandon_witness :
    random_go 10 (fun _ => 0) [4] (Board.new 10 false) 121 0 = none ∧
    random_go 10 (fun _ => 0) [4] (Board.new 10 false) 0 0 =
      random_go 10 (fun _ => 0) []
        (((Board.new 10 false).add_ship (draw_ship 10 4 (fun _ => 0) 0)).1) 1 3 :=
  ⟨(random_board_cumulative_abandon 10 4 (fun _ => 0) (Board.new 10 false) [] 0
        121).2.1
      (place_loop_stop 10 ((10 + 1) ^ 2) 4 (fun _ => 0) (Board.new 10 false) 0 121
        (by omega)),
   (random_board_cumulative_abandon 10 4 (fun _ => 0) (Board.new 10 false) [] 0
        0).2.2 _ _ _
      (place_loop_succ_step 10 ((10 + 1) ^ 2) 4 (fun _ => 0) (Board.new 10 false) 0 0
        (by omega) (by decide))⟩

def exTail : List Nat :=
  [0, 6, 0, 0, 9, 0, 6, 0, 0, 6, 3, 0, 6, 6, 0, 6, 9, 0, 9, 6, 0, 9, 9, 0]

/-- Random stream for the C4 counterexample: attempt 0 places the length-4
template at (0,0) horizontally; attempts 1..120 (indices 3..362) all redraw
(0,0,0), which overlaps the first ship; the draw at indices 363..365 is
(0,3,0), which would succeed; later indices hold further succeeding draws. -/
def exRnd (n : Nat) : Nat :=
  if n < 366 then (if n = 364 then 3 else 0) else exTail.getD (n - 366) 0

def exBugB1 : Board := ((Board.new 10 false).add_ship (draw_ship 10 4 exRnd 0)).1

def exBugB2 : Board := (exBugB1.add_ship (draw_ship 10 3 exRnd 363)).1

theorem exRnd_fail_draw (j : Nat) (hj : j < 120) :
    (exBugB1.add_ship (draw_ship 10 3 exRnd (3 + 3 * j))).2.2 ≠ none := by
  have e1 : exRnd (3 + 3 * j) = 0 := by
    rw [exRnd.eq_1, if_pos (by omega), if_neg (by omega)]
  have e2 : exRnd (3 + 3 * j + 1) = 0 := by
    rw [exRnd.eq_1, if_pos (by omega), if_neg (by omega)]
  have e3 : exRnd (3 + 3 * j + 2) = 0 := by
    rw [exRnd.eq_1, if_pos (by omega), if_neg (by omega)]
  have hdraw : draw_ship 10 3 exRnd (3 + 3 * j) = ⟨⟨0, 0⟩, 3, 0, ∅⟩ := by
    simp only [draw_ship, e1, e2, e3]
    decide
  rw [hdraw]
  decide

/-- C4 counterexample: under the stream exRnd the construction is abandoned
(the cumulative counter passes the bound 121 during the second template),
although no single template's own attempt count exceeds (size+1)^2 = 121:
the first template succeeds on its 1st attempt, and the second template,
with its attempts counted from zero as the per-template reading demands,
succeeds on its 121st attempt, within the bound. -/
theorem random_board_per_template_counterexample :
    _random_board 10 false exRnd = none ∧
    place_loop 10 ((10 + 1) ^ 2) 4 exRnd (Board.new 10 false) 0 0 =
      some (exBugB1, 1, 3) ∧
    place_loop 10 ((10 + 1) ^ 2) 3 exRnd exBugB1 3 0 = some (exBugB2, 121, 366) := by
  have h1 : place_loop 10 ((10 + 1) ^ 2) 4 exRnd (Board.new 10 false) 0 0 =
      some (exBugB1, 1, 3) :=
    place_loop_succ_step 10 ((10 + 1) ^ 2) 4 exRnd (Board.new 10 false) 0 0
      (by omega) (by decide)
  have hok363 : (exBugB1.add_ship (draw_ship 10 3 exRnd 363)).2.2 = none := by
    decide
  have h2 : place_loop 10 ((10 + 1) ^ 2) 3 exRnd exBugB1 3 1 = none := by
    refine (place_loop_none_iff 10 ((10 + 1) ^ 2) 3 exRnd exBugB1 _ 3 1 rfl).mpr ?_
    intro k hk
    exact exRnd_fail_draw k (by omega)
  have h3 : place_loop 10 ((10 + 1) ^ 2) 3 exRnd exBugB1 3 0 =
      some (exBugB2, 121, 366) := by
    rw [place_loop_skip 10 ((10 + 1) ^ 2) 3 exRnd exBugB1 120 3 0 (by omega)
      (fun j hj => exRnd_fail_draw j hj)]
    have e1 : (3 : Nat) + 3 * 120 = 363 := by norm_num
    have e2 : (0 : Nat) + 120 = 120 := by norm_num
    rw [e1, e2,
      place_loop_succ_step 10 ((10 + 1) ^ 2) 3 exRnd exBugB1 363 120 (by omega)
        hok363]
    rfl
  have htmpl : ships_template 10 = [4, 3, 3, 2, 2, 2, 1, 1, 1, 1] := by decide
  refine ⟨?_, h1, h3⟩
  rw [_random_board.eq_1, htmpl,
    random_go_cons_some 10 exRnd 4 [3, 3, 2, 2, 2, 1, 1, 1, 1] (Board.new 10 false)
      exBugB1 0 0 1 3 h1,
    random_go_cons_none 10 exRnd 3 [3, 2, 2, 2, 1, 1, 1, 1] exBugB1 1 3 h2]

theorem Ship.health_insert_le (s : Ship) (t : Dot) :
    Ship.health { s with wreck := insert t s.wreck } ≤ s.health := by
  apply Finset.card_le_card
  apply Finset.sdiff_subset_sdiff
  · exact Finset.Subset.refl _
  · exact Finset.subset_insert _ _

theorem Ship.hit_alive (s : Ship) (t : Dot) (h : (s.hit t).1.isalive = true) :
    s.isalive = true := by
  rw [Ship.isalive, decide_eq_true_eq] at h ⊢
  rw [Ship.hit] at h
  revert h
  split
  · intro h
    exact lt_of_lt_of_le h (Ship.health_insert_le s t)
  · exact id

theorem live_ships_map_hit_le (t : Dot) :
    ∀ l : List Ship,
      ((l.map fun sh => (sh.hit t).1).filter fun s => s.isalive).length ≤
        (l.filter fun s => s.isalive).length
  | [] => le_refl _
  | sh :: l => by
    have ih := live_ships_map_hit_le t l
    simp only [List.map_cons, List.filter_cons]
    by_cases ha : (sh.hit t).1.isalive = true
    · rw [if_pos ha, if_pos (Ship.hit_alive sh t ha)]
      simpa using Nat.succ_le_succ ih
    · rw [if_neg ha]
      split
      · exact le_trans ih (Nat.le_succ _)
      · exact ih

theorem live_ships_shot_le (b : Board) (t : Dot) :
    (b.shot t).1.live_ships ≤ b.live_ships := by
  by_cases h1 : b.out t = true
  · rw [Board.shot, if_pos h1]
  · by_cases h2 : t ∈ b.used_dots
    · rw [Board.shot, if_neg h1, if_pos h2]
    · rw [Board.shot, if_neg h1, if_neg h2]
      simp only [Board.live_ships, shot_fold_ships t b.ships [] false,
        List.nil_append]
      exact live_ships_map_hit_le t b.ships

theorem user_move_live_le (b : Board) (targets : Nat → Dot) :
    ∀ fuel idx b2 r i2, user_move b targets fuel idx = some (b2, r, i2) →
      b2.live_ships ≤ b.live_ships
  | 0, idx, b2, r, i2 => fun h => Option.noConfusion h
  | fuel + 1, idx, b2, r, i2 => by
    intro h
    rw [user_move] at h
    rcases hres : b.shot (targets idx) with ⟨b3, exc⟩
    rw [hres] at h
    cases exc with
    | error e =>
      exact user_move_live_le b targets fuel (idx + 1) b2 r i2 h
    | ok r2 =>
      simp only [Option.some.injEq, Prod.mk.injEq] at h
      obtain ⟨rfl, -, -⟩ := h
      have hle := live_ships_shot_le b (targets idx)
      rw [hres] at hle
      exact hle

/-- C5 (amended): if either side's fleet has zero live vessels at the start
of the match, the loss is reported only after the first player's (the
human's) move completes: exactly one move is executed before the report,
because the win checks run only after each turn's move.  The side reported
as the loser is the human side when its fleet is empty (this check comes
first, so it also decides the case where both fleets are empty), and the AI
side otherwise. -/
theorem game_loop_reports_after_one_move (hT aT : Nat → Dot) (mf fuel : Nat)
    (st : GameSt) (b2 : Board) (r : Bool) (i2 : Nat)
    (h0 : st.human_board.live_ships = 0 ∨ st.ai_board.live_ships = 0)
    (hmv : user_move st.ai_board hT mf 0 = some (b2, r, i2)) :
    game_loop hT aT mf (fuel + 1) st 0 0 0 0 =
      some (if st.human_board.live_ships = 0 then Winner.ai else Winner.human,
        1) := by
  rw [game_loop]
  by_cases hh : st.human_board.live_ships = 0
  · simp [hmv, hh]
  · have hai : st.ai_board.live_ships = 0 := by
      rcases h0 with h | h
      · exact absurd h hh
      · exact h
    have hb2 : b2.live_ships = 0 := by
      have hle := user_move_live_le st.ai_board hT mf 0 b2 r i2 hmv
      omega
    simp [hmv, hh, hb2]

def exEmptyAiSt : GameSt := ⟨Board.new 10 false, Board.new 10 false⟩

def exEmptyHumanSt : GameSt := ⟨Board.new 10 false, ⟨10, ∅, ∅, [exShipB], false⟩⟩

/-- Witness for C5 (amended) at two concrete match states: a fleetless human
side facing a live AI fleet, and a fleetless AI side. -/
theorem game_loop_reports_after_one_move_witness :
    (game_loop (fun _ => ⟨0, 0⟩) (fun _ => ⟨0, 0⟩) 1 1 exEmptyHumanSt 0 0 0 0 =
      some (if exEmptyHumanSt.human_board.live_ships = 0 then Winner.ai
        else Winner.human, 1)) ∧
    (game_loop (fun _ => ⟨0, 0⟩) (fun _ => ⟨0, 0⟩) 1 1 exEmptyAiSt 0 0 0 0 =
      some (if exEmptyAiSt.human_board.live_ships = 0 then Winner.ai
        else Winner.human, 1)) :=
  ⟨game_loop_reports_after_one_move (fun _ => ⟨0, 0⟩) (fun _ => ⟨0, 0⟩) 1 0
      exEmptyHumanSt ⟨10, ∅, {⟨0, 0⟩}, [exShipB], false⟩ false 1
      (Or.inl (by decide)) (by decide),
   game_loop_reports_after_one_move (fun _ => ⟨0, 0⟩) (fun _ => ⟨0, 0⟩) 1 0
      exEmptyAiSt ⟨10, ∅, {⟨0, 0⟩}, [], false⟩ false 1
      (Or.inr (by decide)) (by decide)⟩

def exC5St : GameSt := ⟨⟨10, ∅, ∅, [exShipA], false⟩, Board.new 10 false⟩

/-- C5 counterexample: with the AI fleet already at zero live vessels at the
start, the human player's move still executes first — the loop reports the
human win only after one executed move (move count 1), not before any move. -/
theorem game_loop_counterexample :
    exC5St.ai_board.live_ships = 0 ∧
    exC5St.human_board.live_ships = 1 ∧
    game_loop (fun _ => ⟨0, 0⟩) (fun _ => ⟨0, 0⟩) 1 2 exC5St 0 0 0 0 =
      some (Winner.human, 1) := by
  decide
